import Mathlib

/-!
Verification of the core analytical pipeline of the crypto-arbitrage
backtesting repository: the order-book snapshot aggregator
(`src/data-collection/orderbook_hdf.py`), the stream synchronizer
(`src/backtesting/process_data.py`), the profitability calculator
(`src/backtesting/profitability_calculator.py`) and the backtest simulator
(`src/backtesting/arbitrage_backtester.py`).

Modelling conventions: Python floats are modelled as exact rationals `ℚ`,
integer millisecond timestamps as `ℤ`, Python `None` as `Option.none`, and a
raised exception as an `Except`/`Option` error value.  Pandas `DataFrame`s
are lists of row structures; `df.loc[i]` / `df.iloc[i]` on a default
`RangeIndex` is list access at position `i`, raising `KeyError` /
`IndexError` when the position is absent.
-/

/-- Exceptions raised by the modelled Python code. -/
inductive PyErr where
  | nameError
  | keyError
  | zeroDivisionError
  | indexError
  deriving DecidableEq, Repr

/-- Python 3 `round(x)` to the nearest integer, halves to even (banker's
rounding), on exact rationals. -/
def pyRound (q : ℚ) : ℤ :=
  let f : ℤ := ⌊q⌋
  let r : ℚ := q - f
  if r < 1/2 then f
  else if 1/2 < r then f + 1
  else if f % 2 = 0 then f else f + 1

/-- Python `round(x, n)` to `n` decimal places (`numpy.round` behaves the
same way), halves to even, on exact rationals. -/
def pyRoundTo (q : ℚ) (n : ℕ) : ℚ := (pyRound (q * 10 ^ n) : ℚ) / 10 ^ n

/-! ## Snapshot Aggregator (`orderbook_hdf.py`) -/

/-- Decimal precision metadata of an exchange instrument
(`{"amount": ..., "price": ...}`). -/
structure Precision where
  amount : ℕ
  price : ℕ
  deriving DecidableEq, Repr

/-- One row of the condensed snapshot table produced by
`OrderBookProcessor.calculate_weighted_prices` and consumed by the
synchronizer and the profitability calculator:
`{timestamp, bid_price, bid_volume, ask_price, ask_volume}`. -/
structure OBRow where
  timestamp : ℤ
  bid_price : ℚ
  bid_volume : ℚ
  ask_price : ℚ
  ask_volume : ℚ
  deriving DecidableEq, Repr

/-- `OrderBookProcessor.calculate_volume_and_weighted_price`
(orderbook_hdf.py, lines 143-149): total volume and volume-weighted price of
a list of `(price, volume)` levels; the Python conditional expression
`sum(...) / volume if volume else 0` divides only when the total volume is
non-zero and yields `0` otherwise. -/
def calculate_volume_and_weighted_price (orders : List (ℚ × ℚ)) : ℚ × ℚ :=
  let volume : ℚ := (orders.map (fun order => order.2)).sum
  let weighted_price : ℚ :=
    if volume ≠ 0 then (orders.map (fun order => order.1 * order.2)).sum / volume
    else 0
  (volume, weighted_price)

/-- `OrderBookProcessor.calculate_weighted_prices` (orderbook_hdf.py, lines
127-141): one volume-weighted top-of-book snapshot built from the top 3 bid
levels and top 3 ask levels, each value rounded to the instrument's decimal
precision. -/
def calculate_weighted_prices (bids asks : List (ℚ × ℚ)) (precision : Precision)
    (timestamp : ℤ) : OBRow :=
  let bid := calculate_volume_and_weighted_price (bids.take 3)
  let ask := calculate_volume_and_weighted_price (asks.take 3)
  { timestamp := timestamp
    bid_price := pyRoundTo bid.2 precision.price
    bid_volume := pyRoundTo bid.1 precision.amount
    ask_price := pyRoundTo ask.2 precision.price
    ask_volume := pyRoundTo ask.1 precision.amount }

/-! ## Stream Synchronizer (`process_data.py`) -/

/-- The complete sequence of aligned pairs emitted by
`SynchronizedDataSelector.get_next_row_pair` (process_data.py, lines 30-64)
when driven to exhaustion by `refine_results` (lines 86-98), starting from
cursor position `(i1, i2)`.  Each loop iteration fetches
`df1.iloc[index1]` and `df2.iloc[index2]` (an out-of-range fetch raises
`IndexError`), then declares the stream finished when either cursor sits on
the last row (`_is_last_row`: `index + 1 >= len(df)`), then emits the pair
and advances both cursors when the timestamp difference is strictly below
the tolerance, and otherwise advances the cursor whose row has the smaller
timestamp (`_advance_index_with_greater_timestamp` advances `index2` exactly
when `row1['timestamp'] > row2['timestamp']`). -/
def syncPairs (df1 df2 : List OBRow) (tol : ℤ) (i1 i2 : ℕ) :
    Except PyErr (List (OBRow × OBRow)) :=
  match df1.get? i1, df2.get? i2 with
  | some row1, some row2 =>
    if h : df1.length ≤ i1 + 1 ∨ df2.length ≤ i2 + 1 then .ok []
    else if |row1.timestamp - row2.timestamp| < tol then
      (syncPairs df1 df2 tol (i1 + 1) (i2 + 1)).map (fun rest => (row1, row2) :: rest)
    else if row1.timestamp > row2.timestamp then
      syncPairs df1 df2 tol i1 (i2 + 1)
    else
      syncPairs df1 df2 tol (i1 + 1) i2
  | _, _ => .error .indexError
termination_by (df1.length - i1) + (df2.length - i2)
decreasing_by
  all_goals (push_neg at h; omega)

/-! ## Profitability Model (`profitability_calculator.py`) -/

/-- Static data of one exchange as read by the calculator: its `ccxt` name,
the taker fee `fees["trading"]["taker"]` and the withdrawal-fee table
`fees["funding"]["withdraw"]` (currency to fee). -/
structure ExchangeInfo where
  name : String
  taker : ℚ
  withdraw : List (String × ℚ)
  deriving DecidableEq, Repr

/-- The static market rates loaded once by
`ArbitrageCalculator.load_market_values`: `self.euro_values` and
`self.btc_values`, currency to rate. -/
structure MarketValues where
  euro_values : List (String × ℚ)
  btc_values : List (String × ℚ)
  deriving DecidableEq, Repr

/-- `ArbitrageCalculator.get_withdrawal_fee` (lines 153-157): a missing table
entry (Python `KeyError`) is caught and returned as `None`. -/
def get_withdrawal_fee (exchange : ExchangeInfo) (currency : String) : Option ℚ :=
  exchange.withdraw.lookup currency

/-- `ArbitrageCalculator.convert_to_euro` (lines 68-69):
`initial_quote_paid * self.euro_values[quote]`; a missing rate raises
`KeyError`, modelled as `none`. -/
def convert_to_euro (mv : MarketValues) (initial_quote_paid : ℚ) (quote : String) :
    Option ℚ :=
  (mv.euro_values.lookup quote).map (fun rate => initial_quote_paid * rate)

/-- `ArbitrageCalculator.convert_to_btc` (lines 71-75): the identity for BTC
itself, otherwise `initial_quote_paid * self.btc_values[quote]`. -/
def convert_to_btc (mv : MarketValues) (initial_quote_paid : ℚ) (quote : String) :
    Option ℚ :=
  if quote = "BTC" then some initial_quote_paid
  else (mv.btc_values.lookup quote).map (fun rate => initial_quote_paid * rate)

/-- `ArbitrageCalculator.calculate_trade_amounts` (lines 159-178): the quote
paid buying `max_volume` at the first exchange's ask and the quote gained
selling the fee-reduced base at the second exchange's bid. -/
def calculate_trade_amounts (df_exchange1 df_exchange2 : OBRow) (max_volume : ℚ)
    (transaction_fee_exchange1 transaction_fee_exchange2 : ℚ) : ℚ × ℚ :=
  let ask_price_exchange1 := df_exchange1.ask_price
  let bid_price_exchange2 := df_exchange2.bid_price
  let initial_quote_paid := max_volume * ask_price_exchange1
  let initial_base_received := max_volume * (1 - transaction_fee_exchange1)
  let quote_gained :=
    initial_base_received * bid_price_exchange2 * (1 - transaction_fee_exchange2)
  (initial_quote_paid, quote_gained)

/-- `ArbitrageCalculator.adjust_for_withdrawal` (lines 180-183).  When the
withdrawal fee is `None` the source returns `quote_gained` itself — a float,
not `None` — so this function never returns `none`. -/
def adjust_for_withdrawal (quote_gained : ℚ) (withdrawal_fee_exchange2 : Option ℚ) :
    Option ℚ :=
  match withdrawal_fee_exchange2 with
  | some fee => some (quote_gained - fee)
  | none => some quote_gained

/-- `ArbitrageCalculator.calculate_profits` (lines 185-196): gross and net
profit, absolute and percent.  The percent figures divide by
`initial_quote_paid`; `ℚ` division by zero yields `0` where Python would
raise `ZeroDivisionError` — no theorem below depends on a percent field at
`initial_quote_paid = 0`. -/
def calculate_profits (initial_quote_paid quote_gained : ℚ)
    (quote_gained_after_withdrawal : Option ℚ) : ℚ × ℚ × Option ℚ × Option ℚ :=
  let gross_profit := quote_gained - initial_quote_paid
  let percent_gross_profit := gross_profit / initial_quote_paid * 100
  match quote_gained_after_withdrawal with
  | some qgaw =>
    let net_profit := qgaw - initial_quote_paid
    (gross_profit, percent_gross_profit, some net_profit,
      some (net_profit / initial_quote_paid * 100))
  | none => (gross_profit, percent_gross_profit, none, none)

/-- The single-row result frame built by
`ArbitrageCalculator.profitability_calculator` (lines 137-151). -/
structure ProfRecord where
  max_initial_amount_euro : ℚ
  max_initial_amount_btc : ℚ
  gross_profit_euro : ℚ
  gross_profit_btc : ℚ
  percent_gross_profit : ℚ
  net_profit_euro : Option ℚ
  net_profit_btc : Option ℚ
  percent_net_profit : Option ℚ
  buy_exchange : String
  sell_exchange : String
  timestamp : ℤ
  deriving DecidableEq, Repr

/-- `ArbitrageCalculator.profitability_calculator` (lines 77-151) for the
direction buy on exchange 1, sell on exchange 2.  Modelling notes.  The
source body dereferences `exchange_name1` / `exchange_name2`, names defined
nowhere in the function (the latent defect flagged by the specification);
their evident referents — used for the fee lookups and the
`buy_exchange` / `sell_exchange` labels — are the first and second exchange
of the call, modelled as `exchange1` / `exchange2` and their names.  `base`
and `quote` are the two halves of the symbol parsed from `df.name`
(lines 91-92), passed as parameters.  `timestamp` is the Python floor
division `(t1 + t2) // 2`. -/
def profitability_calculator (mv : MarketValues) (df_exchange1 df_exchange2 : OBRow)
    (exchange1 exchange2 : ExchangeInfo) (base quote : String) : Option ProfRecord :=
  let timestamp := Int.fdiv (df_exchange1.timestamp + df_exchange2.timestamp) 2
  let transaction_fee_exchange1 := exchange1.taker
  let transaction_fee_exchange2 := exchange2.taker
  let _withdrawal_fee_exchange1 := get_withdrawal_fee exchange1 base
  let withdrawal_fee_exchange2 := get_withdrawal_fee exchange2 quote
  let volume_exchange1 := df_exchange1.ask_volume
  let volume_exchange2 := df_exchange2.bid_volume
  let max_volume := min volume_exchange1 volume_exchange2
  let amounts := calculate_trade_amounts df_exchange1 df_exchange2 max_volume
    transaction_fee_exchange1 transaction_fee_exchange2
  let initial_quote_paid := amounts.1
  let quote_gained := amounts.2
  let quote_gained_after_withdrawal :=
    adjust_for_withdrawal quote_gained withdrawal_fee_exchange2
  let profits :=
    calculate_profits initial_quote_paid quote_gained quote_gained_after_withdrawal
  let gross_profit := profits.1
  let percent_gross_profit := profits.2.1
  let net_profit := profits.2.2.1
  let percent_net_profit := profits.2.2.2
  do
    let gross_profit_euro ← convert_to_euro mv gross_profit quote
    let gross_profit_btc ← convert_to_btc mv gross_profit quote
    let net_profit_euro ←
      match net_profit with
      | some np => (convert_to_euro mv np quote).map some
      | none => some none
    let net_profit_btc ←
      match net_profit with
      | some np => (convert_to_btc mv np quote).map some
      | none => some none
    let max_initial_amount_euro ← convert_to_euro mv initial_quote_paid quote
    let max_initial_amount_btc ← convert_to_btc mv initial_quote_paid quote
    some { max_initial_amount_euro := max_initial_amount_euro
           max_initial_amount_btc := max_initial_amount_btc
           gross_profit_euro := gross_profit_euro
           gross_profit_btc := gross_profit_btc
           percent_gross_profit := percent_gross_profit
           net_profit_euro := net_profit_euro
           net_profit_btc := net_profit_btc
           percent_net_profit := percent_net_profit
           buy_exchange := exchange1.name
           sell_exchange := exchange2.name
           timestamp := timestamp }

/-- `ArbitrageCalculator.compare_arbitrage_profitability` (lines 198-210):
evaluates both directions and returns
`result1 if result1["gross_profit_euro"] > result2["gross_profit_euro"]
else result2`. -/
def compare_arbitrage_profitability (mv : MarketValues)
    (df_exchange1 df_exchange2 : OBRow) (exchange1 exchange2 : ExchangeInfo)
    (base quote : String) : Option ProfRecord := do
  let result1 ←
    profitability_calculator mv df_exchange1 df_exchange2 exchange1 exchange2 base quote
  let result2 ←
    profitability_calculator mv df_exchange2 df_exchange1 exchange2 exchange1 base quote
  if result1.gross_profit_euro > result2.gross_profit_euro then some result1
  else some result2

/-! ## Backtest Simulator (`arbitrage_backtester.py`) -/

/-- One row of the refined profitability table as read by
`backtest_results`: `timestamp` (ms), `net_profit_euro`,
`max_initial_amount`. -/
structure BRow where
  timestamp : ℤ
  net_profit_euro : ℚ
  max_initial_amount : ℚ
  deriving DecidableEq, Repr

instance : Inhabited BRow := ⟨⟨0, 0, 0⟩⟩

/-- Cursor state of `DataSelector` (arbitrage_backtester.py, lines 20-44):
the `index`, the `finished` flag, and the current `row`.  In the source
`self.row` starts as `None` and is assigned before every read; the initial
placeholder row here is likewise never read. -/
structure SelSt where
  index : ℕ
  finished : Bool
  row : BRow
  deriving DecidableEq, Repr

/-- `DataSelector.get_next_row` (lines 31-36): load `df.loc[index]` (a
missing label raises `KeyError`, modelled `none`), then set `finished` when
`index + 2 >= len(df)` and otherwise advance `index`. -/
def get_next_row (df : List BRow) (s : SelSt) : Option SelSt :=
  if h : s.index < df.length then
    let r := df.get ⟨s.index, h⟩
    if df.length ≤ s.index + 2 then some { s with row := r, finished := true }
    else some { s with row := r, index := s.index + 1 }
  else none

/-- The `while` loop of `DataSelector.get_next_row_after_time` (lines
41-44): keep calling `get_next_row` while the current row's timestamp in
(unrounded) seconds is below `final_time`, breaking as soon as the selector
reports `finished`. -/
def skipLoop (df : List BRow) (final_time : ℤ) (s : SelSt) : Option SelSt :=
  if (s.row.timestamp : ℚ) / 1000 < (final_time : ℚ) then
    match h : get_next_row df s with
    | none => none
    | some s1 => if hf : s1.finished then some s1 else skipLoop df final_time s1
  else some s
termination_by df.length - s.index
decreasing_by
  simp only [get_next_row] at h
  split at h
  · split at h
    · simp only [Option.some.injEq] at h
      subst h
      simp at hf
    · simp only [Option.some.injEq] at h
      subst h
      simp only []
      omega
  · simp at h

/-- `DataSelector.get_next_row_after_time` (lines 38-44):
`initial_time = round(row.timestamp / 1000)`,
`final_time = initial_time + time_step`, then the skip loop. -/
def get_next_row_after_time (df : List BRow) (s : SelSt) (time_step : ℤ) :
    Option SelSt :=
  skipLoop df (pyRound ((s.row.timestamp : ℚ) / 1000) + time_step) s

/-- `max_trade_volume = 1000` (arbitrage_backtester.py, line 66). -/
def max_trade_volume : ℚ := 1000

/-- `waiting_time_minutes = 90` (line 67). -/
def waiting_time_minutes : ℤ := 90

/-- `waiting_time = waiting_time_minutes * 60`, in seconds (line 68). -/
def waiting_time : ℤ := waiting_time_minutes * 60

/-- `minimum_profit = 0` (line 69). -/
def minimum_profit : ℚ := 0

/-- Proof infrastructure: the termination measure of the scanning loop.  A
`get_next_row` call either advances the index or raises the `finished`
flag, so this quantity strictly decreases across a loop iteration. -/
def selMeasure (df : List BRow) (s : SelSt) : ℕ :=
  2 * (df.length - s.index) + (if s.finished = true then 0 else 1)

/-- The scanning loop of `backtest_results` (lines 75-91).  Per iteration,
while the selector is not finished: append the current row's
rounded-to-seconds time to the time series, cap `max_initial_amount` at
`max_trade_volume`, multiply `net_profit_euro` by the capped amount, and
either realize the profit (append it to the profit series, add it to the
cumulative total and skip ahead by `waiting_time`) or step to the next row.
The accumulators `times`, `profits`, `cumulative` are the source's
`profits_over_time` dictionary.  `realized` is one proof-only trace the
source does not keep: the `time_of_result` values of exactly the rows whose
profit was realized (the branch at lines 86-89); it lets the cooldown policy
be stated, and no other accumulator depends on it. -/
def scanLoop (df : List BRow) (s : SelSt) (times : List ℤ) (profits : List ℚ)
    (cumulative : ℚ) (realized : List ℤ) : Option (List ℤ × List ℚ × ℚ × List ℤ) :=
  if s.finished then some (times, profits, cumulative, realized)
  else
    let row := s.row
    let time_of_result := pyRound ((row.timestamp : ℚ) / 1000)
    let times1 := times ++ [time_of_result]
    let max_initial_amount :=
      if row.max_initial_amount > max_trade_volume then max_trade_volume
      else row.max_initial_amount
    let net_profit_euro := row.net_profit_euro * max_initial_amount
    if net_profit_euro > minimum_profit then
      match h : get_next_row_after_time df s waiting_time with
      | none => none
      | some s1 =>
        scanLoop df s1 times1 (profits ++ [net_profit_euro])
          (cumulative + net_profit_euro) (realized ++ [time_of_result])
    else
      match h : get_next_row df s with
      | none => none
      | some s1 => scanLoop df s1 times1 profits cumulative realized
termination_by selMeasure df s
decreasing_by
  · rename_i hfin hnp
    simp only [selMeasure]
    have hsf : s.finished = false := by simpa using hfin
    have hmeasg : ∀ s0 s2 : SelSt, get_next_row df s0 = some s2 →
        2 * (df.length - s2.index) + (if s2.finished = true then 0 else 1) ≤
          2 * (df.length - s0.index) + (if s0.finished = true then 0 else 1) := by
      intro s0 s2 hg
      simp only [get_next_row] at hg
      split at hg
      · split at hg
        · simp only [Option.some.injEq] at hg
          subst hg
          simp only []
          split_ifs <;> omega
        · simp only [Option.some.injEq] at hg
          subst hg
          simp only []
          split_ifs <;> omega
      · simp at hg
    have hmeass : ∀ ft : ℤ, ∀ s0 s2 : SelSt, skipLoop df ft s0 = some s2 →
        2 * (df.length - s2.index) + (if s2.finished = true then 0 else 1) ≤
          2 * (df.length - s0.index) + (if s0.finished = true then 0 else 1) := by
      intro ft s0
      induction s0 using skipLoop.induct df ft with
      | case1 x hcond hg =>
        intro s2 hsk
        rw [skipLoop.eq_def, if_pos hcond] at hsk
        split at hsk
        · simp at hsk
        · rename_i s3 hg3
          rw [hg] at hg3
          simp at hg3
      | case2 x hcond s3 hg hf3 =>
        intro s2 hsk
        rw [skipLoop.eq_def, if_pos hcond] at hsk
        split at hsk
        · rename_i hgn
          rw [hgn] at hg
          simp at hg
        · rename_i s4 hg4
          rw [hg] at hg4
          simp only [Option.some.injEq] at hg4
          subst hg4
          rw [dif_pos hf3] at hsk
          simp only [Option.some.injEq] at hsk
          subst hsk
          exact hmeasg x _ hg
      | case3 x hcond s3 hg hf3 ih =>
        intro s2 hsk
        rw [skipLoop.eq_def, if_pos hcond] at hsk
        split at hsk
        · rename_i hgn
          rw [hgn] at hg
          simp at hg
        · rename_i s4 hg4
          rw [hg] at hg4
          simp only [Option.some.injEq] at hg4
          subst hg4
          rw [dif_neg hf3] at hsk
          exact le_trans (ih s2 hsk) (hmeasg x s3 hg)
      | case4 x hcond =>
        intro s2 hsk
        rw [skipLoop.eq_def, if_neg hcond] at hsk
        simp only [Option.some.injEq] at hsk
        subst hsk
        exact le_rfl
    have hflo : ⌊(s.row.timestamp : ℚ) / 1000⌋ ≤ pyRound ((s.row.timestamp : ℚ) / 1000) := by
      simp only [pyRound]
      split
      · exact le_rfl
      · split
        · omega
        · split <;> omega
    have hcond : (s.row.timestamp : ℚ) / 1000 <
        ((pyRound ((s.row.timestamp : ℚ) / 1000) + waiting_time : ℤ) : ℚ) := by
      have h1 := Int.sub_one_lt_floor ((s.row.timestamp : ℚ) / 1000)
      have h2 : ((⌊(s.row.timestamp : ℚ) / 1000⌋ : ℤ) : ℚ) ≤
          ((pyRound ((s.row.timestamp : ℚ) / 1000) : ℤ) : ℚ) := by exact_mod_cast hflo
      have hwt : ((waiting_time : ℤ) : ℚ) = 5400 := by
        norm_num [waiting_time, waiting_time_minutes]
      push_cast at h1 h2 ⊢
      rw [hwt]
      linarith
    simp only [get_next_row_after_time] at h
    rw [skipLoop.eq_def, if_pos hcond] at h
    split at h
    · simp at h
    · rename_i s2 hg
      have hstrict : 2 * (df.length - s2.index) + (if s2.finished = true then 0 else 1) <
          2 * (df.length - s.index) + (if s.finished = true then 0 else 1) := by
        simp only [get_next_row] at hg
        split at hg
        · split at hg
          · simp only [Option.some.injEq] at hg
            subst hg
            simp [hsf] <;> omega
          · simp only [Option.some.injEq] at hg
            subst hg
            simp [hsf] <;> omega
        · simp at hg
      by_cases hf2 : s2.finished = true
      · rw [dif_pos hf2] at h
        simp only [Option.some.injEq] at h
        subst h
        exact hstrict
      · rw [dif_neg hf2] at h
        exact lt_of_le_of_lt (hmeass _ s2 s1 h) hstrict
  · rename_i hfin
    simp only [selMeasure]
    have hsf : s.finished = false := by simpa using hfin
    simp only [get_next_row] at h
    split at h
    · split at h
      · simp only [Option.some.injEq] at h
        subst h
        simp [hsf] <;> omega
      · simp only [Option.some.injEq] at h
        subst h
        simp [hsf] <;> omega
    · simp at h

/-- The scanning phase of `backtest_results` (lines 71-75): create the
selector, prime it with one `get_next_row` from index 0, and run the loop
with the empty accumulators of the fresh `profits_over_time` dictionary. -/
def backtestScan (df : List BRow) : Option (List ℤ × List ℚ × ℚ × List ℤ) :=
  match get_next_row df { index := 0, finished := false, row := default } with
  | none => none
  | some s => scanLoop df s [] [] 0 []

/-- The result dictionary of `backtest_results` after post-processing:
`{time (minutes), profit, cumulative_profit}`. -/
structure BTOut where
  time : List ℚ
  profit : List ℚ
  cumulative_profit : ℚ
  deriving DecidableEq, Repr

/-- `backtest_results` (arbitrage_backtester.py, lines 53-101).  After the
scanning loop the source evaluates `convert_seconds_to_minutes(...)` (line
96), a name defined nowhere in the program — the helper that exists is
`convert_time_to_minutes` — so the call raises `NameError` before any
result value is built.  (An empty frame fails even earlier, with `KeyError`
from `df.loc[0]`.) -/
def backtest_results (df : List BRow) : Except PyErr BTOut :=
  match backtestScan df with
  | none => .error .keyError
  | some _ => .error .nameError

/-- `convert_time_to_minutes` (lines 103-114): times relative to the first
element, divided by 60 and rounded to 2 decimals (`np.round`); the access
`time_list[0]` on an empty list raises `IndexError`. -/
def convert_time_to_minutes (time_list : List ℤ) : Except PyErr (List ℚ) :=
  match time_list with
  | [] => .error .indexError
  | t0 :: _ => .ok (time_list.map (fun t => pyRoundTo (((t - t0 : ℤ) : ℚ) / 60) 2))

/-- `backtest_results` with the one-name repair its lines 96-101 evidently
intend (claim C10): the call at line 96 resolves to the existing helper
`convert_time_to_minutes`.  The remaining post-processing is lines 98-99:
`minutes_elapsed = profits_over_time["time"][-1]`, then
`cumulative_profit *= 1440 / minutes_elapsed`; Python raises
`ZeroDivisionError` when `minutes_elapsed` is zero and `IndexError` when
the time series is empty. -/
def backtest_results_intended (df : List BRow) : Except PyErr BTOut :=
  match backtestScan df with
  | none => .error .keyError
  | some out =>
    match convert_time_to_minutes out.1 with
    | .error e => .error e
    | .ok minutes =>
      match minutes.getLast? with
      | none => .error .indexError
      | some minutes_elapsed =>
        if minutes_elapsed = 0 then .error .zeroDivisionError
        else
          .ok { time := minutes, profit := out.2.1,
                cumulative_profit := out.2.2.1 * (1440 / minutes_elapsed) }

/-- Proof infrastructure: the reachable-state invariant of the scanning
loop.  Every selector state the loop runs on is either finished or has its
index at least one row short of the end, so `get_next_row` never goes out
of range and `backtest_results` never raises `KeyError` on a non-empty
frame. -/
def selGood (df : List BRow) (s : SelSt) : Prop :=
  s.finished = true ∨ s.index + 1 < df.length

/-! ## Rounding lemmas -/

theorem floor_le_pyRound (q : ℚ) : ⌊q⌋ ≤ pyRound q := by
  simp only [pyRound]
  split
  · exact le_rfl
  · split
    · omega
    · split <;> omega

theorem le_pyRound_of_cast_le {n : ℤ} {q : ℚ} (h : (n : ℚ) ≤ q) : n ≤ pyRound q :=
  le_trans (Int.le_floor.mpr h) (floor_le_pyRound q)

theorem sub_half_le_pyRound (q : ℚ) : q - 1/2 ≤ (pyRound q : ℚ) := by
  have hfl : q - 1 < (⌊q⌋ : ℚ) := Int.sub_one_lt_floor q
  have hfu : (⌊q⌋ : ℚ) ≤ q := Int.floor_le q
  simp only [pyRound]
  split
  · linarith
  · split
    · push_cast
      linarith
    · split
      · linarith
      · push_cast
        linarith

theorem pyRound_intCast (n : ℤ) : pyRound (n : ℚ) = n := by
  simp [pyRound]

theorem pyRoundTo_zero (n : ℕ) : pyRoundTo 0 n = 0 := by
  have h : pyRound (0 : ℚ) = 0 := by
    simpa using pyRound_intCast 0
  simp [pyRoundTo, h]

/-! ## Snapshot Aggregator: claim C9 -/

/-- C9: for every list of `(price, volume)` levels on one side of the book,
the snapshot aggregator computes that side's weighted price as
`Σ(price·volume) / Σ(volume)` over the top 3 levels, and when the total
volume over those levels is zero the weighted price is `0` (the division is
never performed on zero volume); the aggregated snapshot stores exactly this
weighted price, rounded to the instrument's price precision. -/
theorem c9_weighted_price_top3 (bids asks : List (ℚ × ℚ)) (precision : Precision)
    (timestamp : ℤ) :
    (calculate_volume_and_weighted_price (bids.take 3)).2 =
      (if ((bids.take 3).map (fun order => order.2)).sum = 0 then 0
       else ((bids.take 3).map (fun order => order.1 * order.2)).sum /
         ((bids.take 3).map (fun order => order.2)).sum) ∧
    (calculate_weighted_prices bids asks precision timestamp).bid_price =
      pyRoundTo (calculate_volume_and_weighted_price (bids.take 3)).2 precision.price ∧
    (calculate_weighted_prices bids asks precision timestamp).ask_price =
      pyRoundTo (calculate_volume_and_weighted_price (asks.take 3)).2 precision.price := by
  refine ⟨?_, rfl, rfl⟩
  simp only [calculate_volume_and_weighted_price]
  by_cases h : ((bids.take 3).map (fun order => order.2)).sum = 0 <;> simp [h]

/-! ## Stream Synchronizer: claims C6, C7, C8 -/

theorem syncPairs_tol_aux (df1 df2 : List OBRow) (tol : ℤ) :
    ∀ i1 i2 ps, syncPairs df1 df2 tol i1 i2 = .ok ps →
      ∀ p ∈ ps, |p.1.timestamp - p.2.timestamp| < tol := by
  intro i1 i2
  induction i1, i2 using syncPairs.induct df1 df2 tol with
  | case1 i1 i2 row1 row2 h2 h1 hlast =>
    intro ps h
    rw [syncPairs.eq_def, h1, h2] at h
    simp only [dif_pos hlast, Except.ok.injEq] at h
    subst h
    simp
  | case2 i1 i2 row1 row2 h2 h1 hlast htol ih =>
    intro ps h
    rw [syncPairs.eq_def, h1, h2] at h
    simp only [dif_neg hlast, if_pos htol] at h
    cases hrec : syncPairs df1 df2 tol (i1 + 1) (i2 + 1) with
    | error e => rw [hrec] at h; simp [Except.map] at h
    | ok rest =>
      rw [hrec] at h
      simp only [Except.map, Except.ok.injEq] at h
      subst h
      intro p hp
      rcases List.mem_cons.mp hp with hp1 | hp2
      · subst hp1; exact htol
      · exact ih rest hrec p hp2
  | case3 i1 i2 row1 row2 h2 h1 hlast htol hgt ih =>
    intro ps h
    rw [syncPairs.eq_def, h1, h2] at h
    simp only [dif_neg hlast, if_neg htol, if_pos hgt] at h
    exact ih ps h
  | case4 i1 i2 row1 row2 h2 h1 hlast htol hgt ih =>
    intro ps h
    rw [syncPairs.eq_def, h1, h2] at h
    simp only [dif_neg hlast, if_neg htol, if_neg hgt] at h
    exact ih ps h
  | case5 i1 i2 hnone =>
    intro ps h
    rw [syncPairs.eq_def] at h
    cases h1 : df1.get? i1 with
    | none => rw [h1] at h; simp at h
    | some row1 =>
      cases h2 : df2.get? i2 with
      | none => rw [h1, h2] at h; simp at h
      | some row2 => exact (hnone row1 row2 h1 h2).elim

theorem syncPairs_length_aux (df1 df2 : List OBRow) (tol : ℤ) :
    ∀ i1 i2 ps, syncPairs df1 df2 tol i1 i2 = .ok ps →
      ps.length ≤ min (df1.length - i1) (df2.length - i2) := by
  intro i1 i2
  induction i1, i2 using syncPairs.induct df1 df2 tol with
  | case1 i1 i2 row1 row2 h2 h1 hlast =>
    intro ps h
    rw [syncPairs.eq_def, h1, h2] at h
    simp only [dif_pos hlast, Except.ok.injEq] at h
    subst h
    simp
  | case2 i1 i2 row1 row2 h2 h1 hlast htol ih =>
    intro ps h
    rw [syncPairs.eq_def, h1, h2] at h
    simp only [dif_neg hlast, if_pos htol] at h
    cases hrec : syncPairs df1 df2 tol (i1 + 1) (i2 + 1) with
    | error e => rw [hrec] at h; simp [Except.map] at h
    | ok rest =>
      rw [hrec] at h
      simp only [Except.map, Except.ok.injEq] at h
      subst h
      have hlen := ih rest hrec
      push_neg at hlast
      simp only [List.length_cons]
      omega
  | case3 i1 i2 row1 row2 h2 h1 hlast htol hgt ih =>
    intro ps h
    rw [syncPairs.eq_def, h1, h2] at h
    simp only [dif_neg hlast, if_neg htol, if_pos hgt] at h
    have hlen := ih ps h
    omega
  | case4 i1 i2 row1 row2 h2 h1 hlast htol hgt ih =>
    intro ps h
    rw [syncPairs.eq_def, h1, h2] at h
    simp only [dif_neg hlast, if_neg htol, if_neg hgt] at h
    have hlen := ih ps h
    omega
  | case5 i1 i2 hnone =>
    intro ps h
    rw [syncPairs.eq_def] at h
    cases h1 : df1.get? i1 with
    | none => rw [h1] at h; simp at h
    | some row1 =>
      cases h2 : df2.get? i2 with
      | none => rw [h1, h2] at h; simp at h
      | some row2 => exact (hnone row1 row2 h1 h2).elim

/-- C6 (code bug): with one snapshot per stream, both at timestamp 1000 ms,
and tolerance 60000 ms, the synchronizer emits zero aligned pairs — not the
one pair the specification scenario requires.  The exhaustion check
`_is_last_row` (`index + 1 >= len(df)`) fires while both cursors still sit
on the unconsumed last rows, so the in-tolerance pair at t = 1000 is
dropped. -/
theorem c6_single_snapshot_pair_dropped :
    syncPairs [⟨1000, 1, 1, 1, 1⟩] [⟨1000, 1, 1, 1, 1⟩] 60000 0 0 = .ok [] := by
  simp [syncPairs]

/-- C7: every pair emitted by the stream synchronizer satisfies the strict
tolerance bound `|timestamp_a − timestamp_b| < tolerance`. -/
theorem c7_tolerance_bound (df1 df2 : List OBRow) (tol : ℤ)
    (ps : List (OBRow × OBRow)) (h : syncPairs df1 df2 tol 0 0 = .ok ps) :
    ∀ p ∈ ps, |p.1.timestamp - p.2.timestamp| < tol :=
  syncPairs_tol_aux df1 df2 tol 0 0 ps h

/-- Witness for C7: the first pair emitted by a concrete three-row run is
within tolerance 10. -/
theorem c7_tolerance_bound_witness :
    |(⟨0, 1, 1, 1, 1⟩ : OBRow).timestamp - (⟨2, 1, 1, 1, 1⟩ : OBRow).timestamp| < 10 :=
  c7_tolerance_bound
    [⟨0, 1, 1, 1, 1⟩, ⟨5, 1, 1, 1, 1⟩, ⟨9, 1, 1, 1, 1⟩]
    [⟨2, 1, 1, 1, 1⟩, ⟨6, 1, 1, 1, 1⟩, ⟨7, 1, 1, 1, 1⟩] 10
    [((⟨0, 1, 1, 1, 1⟩ : OBRow), (⟨2, 1, 1, 1, 1⟩ : OBRow)),
     ((⟨5, 1, 1, 1, 1⟩ : OBRow), (⟨6, 1, 1, 1, 1⟩ : OBRow))]
    (by simp [syncPairs, Except.map])
    ((⟨0, 1, 1, 1, 1⟩ : OBRow), (⟨2, 1, 1, 1, 1⟩ : OBRow)) (by simp)

/-- C8 counterexample: with an empty first input stream the synchronizer
does not terminate cleanly with zero pairs; the row fetch `df1.iloc[0]`
raises `IndexError` before the exhaustion check is reached. -/
theorem c8_empty_input_index_error :
    syncPairs [] [⟨1000, 1, 1, 1, 1⟩] 60000 0 0 = .error .indexError := by
  simp [syncPairs]

/-- C8 (amended): whenever the synchronizer terminates normally it emits at
most `min (len seq_a) (len seq_b)` pairs; however, when either input
sequence is empty it raises `IndexError` on the first row fetch instead of
emitting zero pairs and terminating cleanly. -/
theorem c8_output_length_bound (df1 df2 : List OBRow) (tol : ℤ)
    (ps : List (OBRow × OBRow)) (h : syncPairs df1 df2 tol 0 0 = .ok ps) :
    ps.length ≤ min df1.length df2.length := by
  have hb := syncPairs_length_aux df1 df2 tol 0 0 ps h
  simpa using hb

/-- Witness for C8: the concrete three-row run emits two pairs, within the
bound `min 3 3`. -/
theorem c8_output_length_bound_witness :
    ([((⟨0, 1, 1, 1, 1⟩ : OBRow), (⟨2, 1, 1, 1, 1⟩ : OBRow)),
      ((⟨5, 1, 1, 1, 1⟩ : OBRow), (⟨6, 1, 1, 1, 1⟩ : OBRow))].length : ℕ) ≤
      min ([(⟨0, 1, 1, 1, 1⟩ : OBRow), ⟨5, 1, 1, 1, 1⟩, ⟨9, 1, 1, 1, 1⟩].length)
        ([(⟨2, 1, 1, 1, 1⟩ : OBRow), ⟨6, 1, 1, 1, 1⟩, ⟨7, 1, 1, 1, 1⟩].length) :=
  c8_output_length_bound
    [⟨0, 1, 1, 1, 1⟩, ⟨5, 1, 1, 1, 1⟩, ⟨9, 1, 1, 1, 1⟩]
    [⟨2, 1, 1, 1, 1⟩, ⟨6, 1, 1, 1, 1⟩, ⟨7, 1, 1, 1, 1⟩] 10 _
    (by simp [syncPairs, Except.map])

/-! ## Profitability Model: claims C1, C2, C3 -/

/-- C1 counterexample: two exchanges with identical books and fees give the
two directions exactly equal (euro) gross profit, yet the comparison
returns the second-listed direction (`buy_exchange = "beta"`), while the
first-listed direction's record exists, has the same gross profit, and
carries `buy_exchange = "alpha"`. -/
theorem c1_tie_returns_second :
    profitability_calculator ⟨[("USD", 1)], [("USD", 1)]⟩ ⟨0, 1, 1, 1, 1⟩ ⟨0, 1, 1, 1, 1⟩
        ⟨"alpha", 0, []⟩ ⟨"beta", 0, []⟩ "LTC" "USD" =
      some ⟨1, 1, 0, 0, 0, some 0, some 0, some 0, "alpha", "beta", 0⟩ ∧
    profitability_calculator ⟨[("USD", 1)], [("USD", 1)]⟩ ⟨0, 1, 1, 1, 1⟩ ⟨0, 1, 1, 1, 1⟩
        ⟨"beta", 0, []⟩ ⟨"alpha", 0, []⟩ "LTC" "USD" =
      some ⟨1, 1, 0, 0, 0, some 0, some 0, some 0, "beta", "alpha", 0⟩ ∧
    compare_arbitrage_profitability ⟨[("USD", 1)], [("USD", 1)]⟩ ⟨0, 1, 1, 1, 1⟩
        ⟨0, 1, 1, 1, 1⟩ ⟨"alpha", 0, []⟩ ⟨"beta", 0, []⟩ "LTC" "USD" =
      some ⟨1, 1, 0, 0, 0, some 0, some 0, some 0, "beta", "alpha", 0⟩ := by
  norm_num [profitability_calculator, compare_arbitrage_profitability, get_withdrawal_fee,
    convert_to_euro, convert_to_btc, calculate_trade_amounts, adjust_for_withdrawal,
    calculate_profits, List.lookup, Int.fdiv, max_trade_volume]

/-- C1 (amended): whenever both directional computations succeed, the
comparison returns the record of the direction with the strictly higher
euro-converted gross profit; when the two gross profits are exactly equal
it returns the second-listed direction (`result2`, B-to-A), not the
first. -/
theorem c1_higher_gross_direction (mv : MarketValues)
    (df_exchange1 df_exchange2 : OBRow) (exchange1 exchange2 : ExchangeInfo)
    (base quote : String) (result1 result2 : ProfRecord)
    (h1 : profitability_calculator mv df_exchange1 df_exchange2 exchange1 exchange2
        base quote = some result1)
    (h2 : profitability_calculator mv df_exchange2 df_exchange1 exchange2 exchange1
        base quote = some result2) :
    (result2.gross_profit_euro < result1.gross_profit_euro →
      compare_arbitrage_profitability mv df_exchange1 df_exchange2 exchange1 exchange2
        base quote = some result1) ∧
    (result1.gross_profit_euro ≤ result2.gross_profit_euro →
      compare_arbitrage_profitability mv df_exchange1 df_exchange2 exchange1 exchange2
        base quote = some result2) := by
  constructor
  · intro hlt
    simp only [compare_arbitrage_profitability, h1, h2, Option.bind_eq_bind',
      Option.some_bind']
    have hgt : result1.gross_profit_euro > result2.gross_profit_euro := hlt
    rw [if_pos hgt]
  · intro hle
    simp only [compare_arbitrage_profitability, h1, h2, Option.bind_eq_bind',
      Option.some_bind']
    have hngt : ¬(result1.gross_profit_euro > result2.gross_profit_euro) :=
      not_lt.mpr hle
    rw [if_neg hngt]

/-- Witness for C1: a direction with strictly higher gross profit (1 vs −4)
is the one returned. -/
theorem c1_higher_gross_direction_witness :
    compare_arbitrage_profitability ⟨[("USD", 1)], [("USD", 1)]⟩ ⟨0, 1, 1, 1, 1⟩
        ⟨0, 2, 1, 5, 1⟩ ⟨"alpha", 0, []⟩ ⟨"beta", 0, []⟩ "LTC" "USD" =
      some ⟨1, 1, 1, 1, 100, some 1, some 1, some 100, "alpha", "beta", 0⟩ :=
  (c1_higher_gross_direction ⟨[("USD", 1)], [("USD", 1)]⟩ ⟨0, 1, 1, 1, 1⟩
      ⟨0, 2, 1, 5, 1⟩ ⟨"alpha", 0, []⟩ ⟨"beta", 0, []⟩ "LTC" "USD"
      ⟨1, 1, 1, 1, 100, some 1, some 1, some 100, "alpha", "beta", 0⟩
      ⟨5, 5, -4, -4, -80, some (-4), some (-4), some (-80), "beta", "alpha", 0⟩
      (by norm_num [profitability_calculator, compare_arbitrage_profitability, get_withdrawal_fee,
    convert_to_euro, convert_to_btc, calculate_trade_amounts, adjust_for_withdrawal,
    calculate_profits, List.lookup, Int.fdiv, max_trade_volume])
      (by norm_num [profitability_calculator, compare_arbitrage_profitability, get_withdrawal_fee,
    convert_to_euro, convert_to_btc, calculate_trade_amounts, adjust_for_withdrawal,
    calculate_profits, List.lookup, Int.fdiv, max_trade_volume])).1 (by norm_num)

/-- C2 (code bug): when the withdrawal-fee lookup for the settlement
currency on the sell exchange yields no entry, the computation does not
leave the net fields undefined: `adjust_for_withdrawal` passes
`quote_gained` through unchanged, the `None` check inside
`calculate_profits` never fires, and the record silently reports
`net_profit = gross_profit` — the missing fee is treated as a zero fee.
Here the sell exchange has no `"USD"` withdrawal entry, gross profit is 1,
and the net fields come back as `some 1`, not `none`. -/
theorem c2_missing_fee_net_equals_gross :
    get_withdrawal_fee ⟨"beta", 0, [("LTC", 3)]⟩ "USD" = none ∧
    profitability_calculator ⟨[("USD", 1)], [("USD", 1)]⟩ ⟨0, 1, 1, 1, 1⟩ ⟨0, 2, 1, 5, 1⟩
        ⟨"alpha", 0, []⟩ ⟨"beta", 0, [("LTC", 3)]⟩ "LTC" "USD" =
      some ⟨1, 1, 1, 1, 100, some 1, some 1, some 100, "alpha", "beta", 0⟩ := by
  have hbeq : ("USD" == "LTC") = false := by decide
  norm_num [hbeq, profitability_calculator, compare_arbitrage_profitability, get_withdrawal_fee,
    convert_to_euro, convert_to_btc, calculate_trade_amounts, adjust_for_withdrawal,
    calculate_profits, List.lookup, Int.fdiv, max_trade_volume]

/-- C3 counterexample: with ask volume 2000 on the buy side and bid volume
3000 on the sell side the profitability computation trades volume 2000 —
the reported initial outlay is 2000 quote units (euro rate 1) — exceeding
`max_trade_volume = 1000`, the only configured ceiling in the program. -/
theorem c3_volume_exceeds_cap :
    (profitability_calculator ⟨[("USD", 1)], [("USD", 1)]⟩ ⟨0, 1, 1, 1, 2000⟩
        ⟨0, 1, 3000, 1, 1⟩ ⟨"alpha", 0, []⟩ ⟨"beta", 0, []⟩ "LTC" "USD").map
      (fun record => record.max_initial_amount_euro) = some 2000 ∧
    max_trade_volume < 2000 := by
  norm_num [profitability_calculator, compare_arbitrage_profitability, get_withdrawal_fee,
    convert_to_euro, convert_to_btc, calculate_trade_amounts, adjust_for_withdrawal,
    calculate_profits, List.lookup, Int.fdiv, max_trade_volume]

/-- C3 (amended): the trade volume used by the profitability computation is
`min(ask_volume of the buy side, bid_volume of the sell side)` with no
ceiling applied there: the reported initial outlay is exactly that uncapped
volume times the buy-side ask price (converted at the euro rate).  The
configured `max_trade_volume = 1000` is applied only later, by the backtest
simulator, and to the initial amount rather than to this volume. -/
theorem c3_volume_min_uncapped (mv : MarketValues)
    (df_exchange1 df_exchange2 : OBRow) (exchange1 exchange2 : ExchangeInfo)
    (base quote : String) (rate : ℚ) (record : ProfRecord)
    (hrate : mv.euro_values.lookup quote = some rate)
    (h : profitability_calculator mv df_exchange1 df_exchange2 exchange1 exchange2
        base quote = some record) :
    record.max_initial_amount_euro =
      min df_exchange1.ask_volume df_exchange2.bid_volume * df_exchange1.ask_price *
        rate := by
  rcases hfee : get_withdrawal_fee exchange2 quote with _ | fee <;>
  · simp only [profitability_calculator, calculate_trade_amounts, adjust_for_withdrawal,
      calculate_profits, hfee, convert_to_euro, hrate, Option.map_some',
      Option.bind_eq_bind', Option.some_bind', Option.bind_eq_some',
      Option.some.injEq] at h
    obtain ⟨gb, hgb, y, hy, mb, hmb, hrec⟩ := h
    subst hrec
    rfl

/-- Witness for C3: the uncapped-volume formula evaluated on the
counterexample data. -/
theorem c3_volume_min_uncapped_witness :
    (⟨2000, 2000, 0, 0, 0, some 0, some 0, some 0, "alpha", "beta", 0⟩ :
        ProfRecord).max_initial_amount_euro =
      min (2000 : ℚ) 3000 * 1 * 1 :=
  c3_volume_min_uncapped ⟨[("USD", 1)], [("USD", 1)]⟩ ⟨0, 1, 1, 1, 2000⟩
    ⟨0, 1, 3000, 1, 1⟩ ⟨"alpha", 0, []⟩ ⟨"beta", 0, []⟩ "LTC" "USD" 1
    ⟨2000, 2000, 0, 0, 0, some 0, some 0, some 0, "alpha", "beta", 0⟩
    (by simp [List.lookup])
    (by norm_num [profitability_calculator, compare_arbitrage_profitability, get_withdrawal_fee,
    convert_to_euro, convert_to_btc, calculate_trade_amounts, adjust_for_withdrawal,
    calculate_profits, List.lookup, Int.fdiv, max_trade_volume])

/-! ## Backtest Simulator: selector lemmas -/

theorem get_next_row_spec (df : List BRow) (s s2 : SelSt)
    (h : get_next_row df s = some s2) :
    s.index < df.length ∧ df.get? s.index = some s2.row ∧
      ((df.length ≤ s.index + 2 ∧ s2.index = s.index ∧ s2.finished = true) ∨
       (s.index + 2 < df.length ∧ s2.index = s.index + 1 ∧ s2.finished = s.finished)) := by
  simp only [get_next_row] at h
  split at h
  · rename_i hlt
    split at h
    · rename_i hle
      simp only [Option.some.injEq] at h
      subst h
      refine ⟨hlt, ?_, Or.inl ⟨hle, rfl, rfl⟩⟩
      simp [List.get?_eq_get hlt]
    · rename_i hgt
      simp only [Option.some.injEq] at h
      subst h
      refine ⟨hlt, ?_, Or.inr ⟨by omega, rfl, rfl⟩⟩
      simp [List.get?_eq_get hlt]
  · simp at h

theorem get_next_row_isSome (df : List BRow) (s : SelSt) (h : s.index < df.length) :
    ∃ s2, get_next_row df s = some s2 := by
  simp only [get_next_row, dif_pos h]
  split <;> exact ⟨_, rfl⟩

theorem get_next_row_ne_none (df : List BRow) (s : SelSt) (h : s.index < df.length) :
    get_next_row df s ≠ none := by
  simp only [get_next_row, dif_pos h]
  split <;> simp

theorem get_next_row_good (df : List BRow) (s s2 : SelSt)
    (h : get_next_row df s = some s2) : selGood df s2 := by
  obtain ⟨hlt, _, hc⟩ := get_next_row_spec df s s2 h
  rcases hc with ⟨_, _, hf⟩ | ⟨hlen, hi, _⟩
  · exact Or.inl hf
  · exact Or.inr (by omega)

theorem get_next_row_measure_le (df : List BRow) (s s2 : SelSt)
    (h : get_next_row df s = some s2) : selMeasure df s2 ≤ selMeasure df s := by
  obtain ⟨hlt, _, hc⟩ := get_next_row_spec df s s2 h
  rcases hc with ⟨hle, hi, hf⟩ | ⟨hlen, hi, hf⟩ <;> cases hsf : s.finished <;>
    simp [selMeasure, hi, hf, hsf] <;> omega

theorem get_next_row_measure_lt (df : List BRow) (s s2 : SelSt)
    (hsf : s.finished = false) (h : get_next_row df s = some s2) :
    selMeasure df s2 < selMeasure df s := by
  obtain ⟨hlt, _, hc⟩ := get_next_row_spec df s s2 h
  rcases hc with ⟨hle, hi, hf⟩ | ⟨hlen, hi, hf⟩ <;>
    simp [selMeasure, hi, hf, hsf] <;> omega

theorem skipLoop_measure_le (df : List BRow) (ft : ℤ) :
    ∀ s s2, skipLoop df ft s = some s2 → selMeasure df s2 ≤ selMeasure df s := by
  intro s
  induction s using skipLoop.induct df ft with
  | case1 x hcond hg =>
    intro s2 hsk
    rw [skipLoop.eq_def, if_pos hcond] at hsk
    split at hsk
    · simp at hsk
    · rename_i s3 hg3
      rw [hg] at hg3
      simp at hg3
  | case2 x hcond s3 hg hf3 =>
    intro s2 hsk
    rw [skipLoop.eq_def, if_pos hcond] at hsk
    split at hsk
    · rename_i hgn
      rw [hgn] at hg
      simp at hg
    · rename_i s4 hg4
      rw [hg] at hg4
      simp only [Option.some.injEq] at hg4
      subst hg4
      rw [dif_pos hf3] at hsk
      simp only [Option.some.injEq] at hsk
      subst hsk
      exact get_next_row_measure_le df x _ hg
  | case3 x hcond s3 hg hf3 ih =>
    intro s2 hsk
    rw [skipLoop.eq_def, if_pos hcond] at hsk
    split at hsk
    · rename_i hgn
      rw [hgn] at hg
      simp at hg
    · rename_i s4 hg4
      rw [hg] at hg4
      simp only [Option.some.injEq] at hg4
      subst hg4
      rw [dif_neg hf3] at hsk
      exact le_trans (ih s2 hsk) (get_next_row_measure_le df x s3 hg)
  | case4 x hcond =>
    intro s2 hsk
    rw [skipLoop.eq_def, if_neg hcond] at hsk
    simp only [Option.some.injEq] at hsk
    subst hsk
    exact le_rfl

theorem get_next_row_after_time_measure_lt (df : List BRow) (s s2 : SelSt)
    (hsf : s.finished = false)
    (h : get_next_row_after_time df s waiting_time = some s2) :
    selMeasure df s2 < selMeasure df s := by
  have hcond : (s.row.timestamp : ℚ) / 1000 <
      ((pyRound ((s.row.timestamp : ℚ) / 1000) + waiting_time : ℤ) : ℚ) := by
    have h1 := Int.sub_one_lt_floor ((s.row.timestamp : ℚ) / 1000)
    have h2 : ((⌊(s.row.timestamp : ℚ) / 1000⌋ : ℤ) : ℚ) ≤
        ((pyRound ((s.row.timestamp : ℚ) / 1000) : ℤ) : ℚ) := by
      exact_mod_cast floor_le_pyRound _
    have hwt : ((waiting_time : ℤ) : ℚ) = 5400 := by
      norm_num [waiting_time, waiting_time_minutes]
    push_cast at h1 h2 ⊢
    rw [hwt]
    linarith
  simp only [get_next_row_after_time] at h
  rw [skipLoop.eq_def, if_pos hcond] at h
  split at h
  · simp at h
  · rename_i s3 hg
    have hstrict := get_next_row_measure_lt df s s3 hsf hg
    by_cases hf3 : s3.finished = true
    · rw [dif_pos hf3] at h
      simp only [Option.some.injEq] at h
      subst h
      exact hstrict
    · rw [dif_neg hf3] at h
      exact lt_of_le_of_lt (skipLoop_measure_le df _ s3 s2 h) hstrict

theorem skipLoop_spec (df : List BRow) (ft : ℤ) :
    ∀ s s2, skipLoop df ft s = some s2 →
      ∀ k, df.get? k = some s.row → k ≤ s.index →
        ∃ k2, df.get? k2 = some s2.row ∧ k2 ≤ s2.index ∧ k ≤ k2 ∧
          (s2.finished = false → (ft : ℚ) ≤ (s2.row.timestamp : ℚ) / 1000) := by
  intro s
  induction s using skipLoop.induct df ft with
  | case1 x hcond hg =>
    intro s2 hsk k hk hks
    rw [skipLoop.eq_def, if_pos hcond] at hsk
    split at hsk
    · simp at hsk
    · rename_i s3 hg3
      rw [hg] at hg3
      simp at hg3
  | case2 x hcond s3 hg hf3 =>
    intro s2 hsk k hk hks
    rw [skipLoop.eq_def, if_pos hcond] at hsk
    split at hsk
    · rename_i hgn
      rw [hgn] at hg
      simp at hg
    · rename_i s4 hg4
      rw [hg] at hg4
      simp only [Option.some.injEq] at hg4
      subst hg4
      rw [dif_pos hf3] at hsk
      simp only [Option.some.injEq] at hsk
      subst hsk
      obtain ⟨hlt, hrow, hc⟩ := get_next_row_spec df x _ hg
      refine ⟨x.index, hrow, ?_, hks, ?_⟩
      · rcases hc with ⟨_, hi, _⟩ | ⟨_, hi, _⟩ <;> omega
      · intro hf
        rw [hf3] at hf
        exact absurd hf (by decide)
  | case3 x hcond s3 hg hf3 ih =>
    intro s2 hsk k hk hks
    rw [skipLoop.eq_def, if_pos hcond] at hsk
    split at hsk
    · rename_i hgn
      rw [hgn] at hg
      simp at hg
    · rename_i s4 hg4
      rw [hg] at hg4
      simp only [Option.some.injEq] at hg4
      subst hg4
      rw [dif_neg hf3] at hsk
      obtain ⟨hlt, hrow, hc⟩ := get_next_row_spec df x s3 hg
      have hidx : x.index ≤ s3.index := by
        rcases hc with ⟨_, hi, _⟩ | ⟨_, hi, _⟩ <;> omega
      obtain ⟨k2, hk2, hk2i, hkk2, hb⟩ := ih s2 hsk x.index hrow hidx
      exact ⟨k2, hk2, hk2i, le_trans hks hkk2, hb⟩
  | case4 x hcond =>
    intro s2 hsk k hk hks
    rw [skipLoop.eq_def, if_neg hcond] at hsk
    simp only [Option.some.injEq] at hsk
    subst hsk
    exact ⟨k, hk, hks, le_rfl, fun _ => not_lt.mp hcond⟩

theorem get_next_row_after_time_spec (df : List BRow) (s s2 : SelSt)
    (h : get_next_row_after_time df s waiting_time = some s2)
    (k : ℕ) (hk : df.get? k = some s.row) (hks : k ≤ s.index) :
    ∃ k2, df.get? k2 = some s2.row ∧ k2 ≤ s2.index ∧ k ≤ k2 ∧
      (s2.finished = false →
        ((pyRound ((s.row.timestamp : ℚ) / 1000) + waiting_time : ℤ) : ℚ) ≤
          (s2.row.timestamp : ℚ) / 1000) := by
  simp only [get_next_row_after_time] at h
  exact skipLoop_spec df _ s s2 h k hk hks

/-! ## Backtest Simulator: scanning-loop step equations and totality -/

theorem scanLoop_eq_finished (df : List BRow) (s : SelSt) (times : List ℤ)
    (profits : List ℚ) (cumulative : ℚ) (realized : List ℤ) (hs : s.finished = true) :
    scanLoop df s times profits cumulative realized =
      some (times, profits, cumulative, realized) := by
  rw [scanLoop.eq_def, if_pos hs]

theorem scanLoop_eq_realized (df : List BRow) (s : SelSt) (times : List ℤ)
    (profits : List ℚ) (cumulative : ℚ) (realized : List ℤ) (s1 : SelSt)
    (hs : s.finished = false)
    (hnp : s.row.net_profit_euro *
        (if s.row.max_initial_amount > max_trade_volume then max_trade_volume
         else s.row.max_initial_amount) > minimum_profit)
    (hsk : get_next_row_after_time df s waiting_time = some s1) :
    scanLoop df s times profits cumulative realized =
      scanLoop df s1 (times ++ [pyRound ((s.row.timestamp : ℚ) / 1000)])
        (profits ++ [s.row.net_profit_euro *
          (if s.row.max_initial_amount > max_trade_volume then max_trade_volume
           else s.row.max_initial_amount)])
        (cumulative + s.row.net_profit_euro *
          (if s.row.max_initial_amount > max_trade_volume then max_trade_volume
           else s.row.max_initial_amount))
        (realized ++ [pyRound ((s.row.timestamp : ℚ) / 1000)]) := by
  rw [scanLoop.eq_def]
  rw [if_neg (by simp [hs])]
  simp only []
  rw [if_pos hnp]
  split
  · rename_i hn
    rw [hsk] at hn
    simp at hn
  · rename_i s9 h9
    rw [hsk] at h9
    simp only [Option.some.injEq] at h9
    subst h9
    rfl

theorem scanLoop_realized_none (df : List BRow) (s : SelSt) (times : List ℤ)
    (profits : List ℚ) (cumulative : ℚ) (realized : List ℤ)
    (hs : s.finished = false)
    (hnp : s.row.net_profit_euro *
        (if s.row.max_initial_amount > max_trade_volume then max_trade_volume
         else s.row.max_initial_amount) > minimum_profit)
    (hsk : get_next_row_after_time df s waiting_time = none) :
    scanLoop df s times profits cumulative realized = none := by
  rw [scanLoop.eq_def]
  rw [if_neg (by simp [hs])]
  simp only []
  rw [if_pos hnp]
  split
  · rfl
  · rename_i s9 h9
    rw [hsk] at h9
    simp at h9

theorem scanLoop_eq_step (df : List BRow) (s : SelSt) (times : List ℤ)
    (profits : List ℚ) (cumulative : ℚ) (realized : List ℤ) (s1 : SelSt)
    (hs : s.finished = false)
    (hnp : ¬(s.row.net_profit_euro *
        (if s.row.max_initial_amount > max_trade_volume then max_trade_volume
         else s.row.max_initial_amount) > minimum_profit))
    (hg : get_next_row df s = some s1) :
    scanLoop df s times profits cumulative realized =
      scanLoop df s1 (times ++ [pyRound ((s.row.timestamp : ℚ) / 1000)])
        profits cumulative realized := by
  rw [scanLoop.eq_def]
  rw [if_neg (by simp [hs])]
  simp only []
  rw [if_neg hnp]
  split
  · rename_i hn
    rw [hg] at hn
    simp at hn
  · rename_i s9 h9
    rw [hg] at h9
    simp only [Option.some.injEq] at h9
    subst h9
    rfl

theorem scanLoop_step_none (df : List BRow) (s : SelSt) (times : List ℤ)
    (profits : List ℚ) (cumulative : ℚ) (realized : List ℤ)
    (hs : s.finished = false)
    (hnp : ¬(s.row.net_profit_euro *
        (if s.row.max_initial_amount > max_trade_volume then max_trade_volume
         else s.row.max_initial_amount) > minimum_profit))
    (hg : get_next_row df s = none) :
    scanLoop df s times profits cumulative realized = none := by
  rw [scanLoop.eq_def]
  rw [if_neg (by simp [hs])]
  simp only []
  rw [if_neg hnp]
  split
  · rfl
  · rename_i s9 h9
    rw [hg] at h9
    simp at h9

theorem skipLoop_total (df : List BRow) (ft : ℤ) :
    ∀ s, s.finished = false → s.index + 1 < df.length →
      ∃ s2, skipLoop df ft s = some s2 ∧ selGood df s2 := by
  intro s
  induction s using skipLoop.induct df ft with
  | case1 x hcond hg =>
    intro hxf hxl
    exact absurd hg (get_next_row_ne_none df x (by omega))
  | case2 x hcond s3 hg hf3 =>
    intro hxf hxl
    refine ⟨s3, ?_, get_next_row_good df x s3 hg⟩
    rw [skipLoop.eq_def, if_pos hcond]
    split
    · rename_i hgn
      rw [hgn] at hg
      simp at hg
    · rename_i s4 hg4
      rw [hg] at hg4
      simp only [Option.some.injEq] at hg4
      subst hg4
      rw [dif_pos hf3]
  | case3 x hcond s3 hg hf3 ih =>
    intro hxf hxl
    have hgood3 := get_next_row_good df x s3 hg
    have hxl3 : s3.index + 1 < df.length := by
      rcases hgood3 with hf | hl
      · exact absurd hf hf3
      · exact hl
    obtain ⟨s2, hsk, hgood2⟩ := ih (by simpa using hf3) hxl3
    refine ⟨s2, ?_, hgood2⟩
    rw [skipLoop.eq_def, if_pos hcond]
    split
    · rename_i hgn
      rw [hgn] at hg
      simp at hg
    · rename_i s4 hg4
      rw [hg] at hg4
      simp only [Option.some.injEq] at hg4
      subst hg4
      rw [dif_neg hf3]
      exact hsk
  | case4 x hcond =>
    intro hxf hxl
    refine ⟨x, ?_, Or.inr hxl⟩
    rw [skipLoop.eq_def, if_neg hcond]

theorem get_next_row_after_time_total (df : List BRow) (s : SelSt)
    (hsf : s.finished = false) (hl : s.index + 1 < df.length) :
    ∃ s2, get_next_row_after_time df s waiting_time = some s2 ∧ selGood df s2 := by
  simpa [get_next_row_after_time] using
    skipLoop_total df (pyRound ((s.row.timestamp : ℚ) / 1000) + waiting_time) s hsf hl

theorem scanLoop_total (df : List BRow) :
    ∀ n s, selMeasure df s ≤ n → selGood df s →
      ∀ times profits cumulative realized,
        ∃ out, scanLoop df s times profits cumulative realized = some out := by
  intro n
  induction n using Nat.strong_induction_on with
  | _ n ih =>
    intro s hmeas hgood times profits cumulative realized
    by_cases hf : s.finished = true
    · exact ⟨_, scanLoop_eq_finished df s times profits cumulative realized hf⟩
    · have hsf : s.finished = false := by simpa using hf
      have hl : s.index + 1 < df.length := by
        rcases hgood with h | h
        · exact absurd h hf
        · exact h
      by_cases hnp : s.row.net_profit_euro *
          (if s.row.max_initial_amount > max_trade_volume then max_trade_volume
           else s.row.max_initial_amount) > minimum_profit
      · obtain ⟨s1, hsk, hgood1⟩ := get_next_row_after_time_total df s hsf hl
        have hm1 := get_next_row_after_time_measure_lt df s s1 hsf hsk
        obtain ⟨out, hout⟩ := ih (selMeasure df s1) (by omega) s1 le_rfl hgood1
          (times ++ [pyRound ((s.row.timestamp : ℚ) / 1000)])
          (profits ++ [s.row.net_profit_euro *
            (if s.row.max_initial_amount > max_trade_volume then max_trade_volume
             else s.row.max_initial_amount)])
          (cumulative + s.row.net_profit_euro *
            (if s.row.max_initial_amount > max_trade_volume then max_trade_volume
             else s.row.max_initial_amount))
          (realized ++ [pyRound ((s.row.timestamp : ℚ) / 1000)])
        refine ⟨out, ?_⟩
        rw [scanLoop_eq_realized df s times profits cumulative realized s1 hsf hnp hsk]
        exact hout
      · obtain ⟨s1, hg⟩ := get_next_row_isSome df s (by omega)
        have hgood1 := get_next_row_good df s s1 hg
        have hm1 := get_next_row_measure_lt df s s1 hsf hg
        obtain ⟨out, hout⟩ := ih (selMeasure df s1) (by omega) s1 le_rfl hgood1
          (times ++ [pyRound ((s.row.timestamp : ℚ) / 1000)]) profits cumulative realized
        refine ⟨out, ?_⟩
        rw [scanLoop_eq_step df s times profits cumulative realized s1 hsf hnp hg]
        exact hout

/-! ## Backtest Simulator: skip-loop step equations and sortedness -/

theorem skipLoop_eq_advance (df : List BRow) (ft : ℤ) (s s1 : SelSt)
    (hcond : (s.row.timestamp : ℚ) / 1000 < (ft : ℚ))
    (hg : get_next_row df s = some s1) (hf : s1.finished = false) :
    skipLoop df ft s = skipLoop df ft s1 := by
  rw [skipLoop.eq_def, if_pos hcond]
  split
  · rename_i hgn
    rw [hgn] at hg
    simp at hg
  · rename_i s4 hg4
    rw [hg] at hg4
    simp only [Option.some.injEq] at hg4
    subst hg4
    rw [dif_neg (by simp [hf])]

theorem skipLoop_eq_break (df : List BRow) (ft : ℤ) (s s1 : SelSt)
    (hcond : (s.row.timestamp : ℚ) / 1000 < (ft : ℚ))
    (hg : get_next_row df s = some s1) (hf : s1.finished = true) :
    skipLoop df ft s = some s1 := by
  rw [skipLoop.eq_def, if_pos hcond]
  split
  · rename_i hgn
    rw [hgn] at hg
    simp at hg
  · rename_i s4 hg4
    rw [hg] at hg4
    simp only [Option.some.injEq] at hg4
    subst hg4
    rw [dif_pos hf]

theorem skipLoop_eq_stop (df : List BRow) (ft : ℤ) (s : SelSt)
    (hcond : ¬((s.row.timestamp : ℚ) / 1000 < (ft : ℚ))) :
    skipLoop df ft s = some s := by
  rw [skipLoop.eq_def, if_neg hcond]

theorem sorted_timestamp_le (df : List BRow)
    (hs : df.Pairwise (fun a b => a.timestamp ≤ b.timestamp))
    {i j : ℕ} {a b : BRow} (hij : i ≤ j)
    (ha : df.get? i = some a) (hb : df.get? j = some b) :
    a.timestamp ≤ b.timestamp := by
  rcases eq_or_lt_of_le hij with rfl | hlt
  · rw [ha] at hb
    injection hb with hab
    rw [hab]
  · rw [List.get?_eq_some] at ha hb
    obtain ⟨hia, ha⟩ := ha
    obtain ⟨hjb, hb⟩ := hb
    subst ha
    subst hb
    exact List.pairwise_iff_get.mp hs ⟨i, hia⟩ ⟨j, hjb⟩ hlt

/-! ## Backtest Simulator: the cooldown invariant -/

theorem scanLoop_cooldown_aux (df : List BRow)
    (hs : df.Pairwise (fun a b => a.timestamp ≤ b.timestamp)) :
    ∀ n : ℕ, ∀ s : SelSt, selMeasure df s ≤ n →
      ∀ k : ℕ, df.get? k = some s.row → k ≤ s.index →
      ∀ realized : List ℤ,
        (∀ t ∈ realized, ∀ j, k ≤ j → ∀ b : BRow, df.get? j = some b →
          t + waiting_time ≤ pyRound ((b.timestamp : ℚ) / 1000)) →
        realized.Pairwise (fun a b => a + waiting_time ≤ b) →
        ∀ times profits cumulative out,
          scanLoop df s times profits cumulative realized = some out →
          out.2.2.2.Pairwise (fun a b => a + waiting_time ≤ b) := by
  intro n
  induction n using Nat.strong_induction_on with
  | _ n ih =>
    intro s hmeas k hk hks realized hgood hpair times profits cumulative out hout
    by_cases hf : s.finished = true
    · rw [scanLoop_eq_finished df s times profits cumulative realized hf] at hout
      simp only [Option.some.injEq] at hout
      subst hout
      exact hpair
    · have hsf : s.finished = false := by simpa using hf
      by_cases hnp : s.row.net_profit_euro *
          (if s.row.max_initial_amount > max_trade_volume then max_trade_volume
           else s.row.max_initial_amount) > minimum_profit
      · cases hsk : get_next_row_after_time df s waiting_time with
        | none =>
          rw [scanLoop_realized_none df s times profits cumulative realized hsf hnp hsk]
            at hout
          simp at hout
        | some s1 =>
          rw [scanLoop_eq_realized df s times profits cumulative realized s1 hsf hnp hsk]
            at hout
          obtain ⟨k2, hk2, hk2i, hkk2, hbound⟩ :=
            get_next_row_after_time_spec df s s1 hsk k hk hks
          have hTle : ∀ t ∈ realized,
              t + waiting_time ≤ pyRound ((s.row.timestamp : ℚ) / 1000) :=
            fun t ht => hgood t ht k le_rfl s.row hk
          have hpair1 : (realized ++ [pyRound ((s.row.timestamp : ℚ) / 1000)]).Pairwise
              (fun a b => a + waiting_time ≤ b) := by
            rw [List.pairwise_append]
            refine ⟨hpair, List.pairwise_singleton _ _, ?_⟩
            intro a ha b hb
            rw [List.mem_singleton] at hb
            subst hb
            exact hTle a ha
          by_cases hf1 : s1.finished = true
          · rw [scanLoop_eq_finished df s1 _ _ _ _ hf1] at hout
            simp only [Option.some.injEq] at hout
            subst hout
            exact hpair1
          · have hsf1 : s1.finished = false := by simpa using hf1
            have hbound1 := hbound hsf1
            have hgood1 : ∀ t ∈ realized ++ [pyRound ((s.row.timestamp : ℚ) / 1000)],
                ∀ j, k2 ≤ j → ∀ b : BRow, df.get? j = some b →
                  t + waiting_time ≤ pyRound ((b.timestamp : ℚ) / 1000) := by
              intro t ht j hj b hb
              rcases List.mem_append.mp ht with ht | ht
              · exact hgood t ht j (le_trans hkk2 hj) b hb
              · rw [List.mem_singleton] at ht
                subst ht
                have hts : s1.row.timestamp ≤ b.timestamp :=
                  sorted_timestamp_le df hs hj hk2 hb
                have hcast : ((pyRound ((s.row.timestamp : ℚ) / 1000) +
                    waiting_time : ℤ) : ℚ) ≤ (b.timestamp : ℚ) / 1000 := by
                  refine le_trans hbound1 ?_
                  have hcast2 : (s1.row.timestamp : ℚ) ≤ (b.timestamp : ℚ) := by
                    exact_mod_cast hts
                  gcongr
                exact le_pyRound_of_cast_le hcast
            have hm1 := get_next_row_after_time_measure_lt df s s1 hsf hsk
            exact ih (selMeasure df s1) (by omega) s1 le_rfl k2 hk2 hk2i
              (realized ++ [pyRound ((s.row.timestamp : ℚ) / 1000)]) hgood1 hpair1
              _ _ _ out hout
      · cases hg : get_next_row df s with
        | none =>
          rw [scanLoop_step_none df s times profits cumulative realized hsf hnp hg] at hout
          simp at hout
        | some s1 =>
          rw [scanLoop_eq_step df s times profits cumulative realized s1 hsf hnp hg] at hout
          obtain ⟨hlen, hrow, hc⟩ := get_next_row_spec df s s1 hg
          have hk2i : s.index ≤ s1.index := by
            rcases hc with ⟨_, hi, _⟩ | ⟨_, hi, _⟩ <;> omega
          have hgood1 : ∀ t ∈ realized, ∀ j, s.index ≤ j → ∀ b : BRow,
              df.get? j = some b →
                t + waiting_time ≤ pyRound ((b.timestamp : ℚ) / 1000) :=
            fun t ht j hj b hb => hgood t ht j (le_trans hks hj) b hb
          have hm1 := get_next_row_measure_lt df s s1 hsf hg
          exact ih (selMeasure df s1) (by omega) s1 le_rfl s.index hrow hk2i
            realized hgood1 hpair _ _ _ out hout

/-! ## Backtest Simulator: claims C5, C10, C4 -/

/-- C5: on an input frame with non-decreasing timestamps, after the backtest
simulator realizes a trade at a record with (rounded-to-seconds) time `T`,
no further trade is realized at any record whose time lies strictly inside
`(T, T + waiting_time)`: the realized-trade times of the scanning loop are
pairwise at least the cooldown `waiting_time` (= 5400 s) apart, because the
cursor skips to the first subsequent record whose timestamp is at or after
`T + waiting_time`. -/
theorem c5_cooldown_pairwise (df : List BRow)
    (hs : df.Pairwise (fun a b => a.timestamp ≤ b.timestamp))
    (times : List ℤ) (profits : List ℚ) (cumulative : ℚ) (realized : List ℤ)
    (h : backtestScan df = some (times, profits, cumulative, realized)) :
    realized.Pairwise (fun a b => a + waiting_time ≤ b) := by
  unfold backtestScan at h
  cases hg : get_next_row df { index := 0, finished := false, row := default } with
  | none =>
    rw [hg] at h
    simp at h
  | some s =>
    rw [hg] at h
    obtain ⟨hlt, hrow, hc⟩ := get_next_row_spec df _ s hg
    have hres := scanLoop_cooldown_aux df hs (selMeasure df s) s le_rfl 0 hrow
      (Nat.zero_le _) [] (by intro t ht; simp at ht) List.Pairwise.nil
      [] [] 0 (times, profits, cumulative, realized) h
    simpa using hres

/-- Witness for C5: a sorted five-row frame realizes trades at t = 0 s and
t = 5400 s; the realized times are `waiting_time` apart. -/
theorem c5_cooldown_pairwise_witness :
    [(0 : ℤ), 5400].Pairwise (fun a b => a + waiting_time ≤ b) := by
  have hg0 : get_next_row
      [(⟨0, 1, 1⟩ : BRow), ⟨1000, 1, 1⟩, ⟨5400000, 1, 1⟩, ⟨5401000, 1, 1⟩, ⟨5402000, 1, 1⟩]
      { index := 0, finished := false, row := default } =
      some ⟨1, false, ⟨0, 1, 1⟩⟩ := by
    norm_num [get_next_row]
  have hg1 : get_next_row
      [(⟨0, 1, 1⟩ : BRow), ⟨1000, 1, 1⟩, ⟨5400000, 1, 1⟩, ⟨5401000, 1, 1⟩, ⟨5402000, 1, 1⟩]
      ⟨1, false, ⟨0, 1, 1⟩⟩ = some ⟨2, false, ⟨1000, 1, 1⟩⟩ := by
    norm_num [get_next_row]
  have hg2 : get_next_row
      [(⟨0, 1, 1⟩ : BRow), ⟨1000, 1, 1⟩, ⟨5400000, 1, 1⟩, ⟨5401000, 1, 1⟩, ⟨5402000, 1, 1⟩]
      ⟨2, false, ⟨1000, 1, 1⟩⟩ = some ⟨3, false, ⟨5400000, 1, 1⟩⟩ := by
    norm_num [get_next_row]
  have hg3 : get_next_row
      [(⟨0, 1, 1⟩ : BRow), ⟨1000, 1, 1⟩, ⟨5400000, 1, 1⟩, ⟨5401000, 1, 1⟩, ⟨5402000, 1, 1⟩]
      ⟨3, false, ⟨5400000, 1, 1⟩⟩ = some ⟨3, true, ⟨5401000, 1, 1⟩⟩ := by
    norm_num [get_next_row]
  have hsk1 : get_next_row_after_time
      [(⟨0, 1, 1⟩ : BRow), ⟨1000, 1, 1⟩, ⟨5400000, 1, 1⟩, ⟨5401000, 1, 1⟩, ⟨5402000, 1, 1⟩]
      ⟨1, false, ⟨0, 1, 1⟩⟩ waiting_time = some ⟨3, false, ⟨5400000, 1, 1⟩⟩ := by
    simp only [get_next_row_after_time]
    rw [skipLoop_eq_advance _ _ _ ⟨2, false, ⟨1000, 1, 1⟩⟩
      (by norm_num [pyRound, waiting_time, waiting_time_minutes]) hg1 rfl]
    rw [skipLoop_eq_advance _ _ _ ⟨3, false, ⟨5400000, 1, 1⟩⟩
      (by norm_num [pyRound, waiting_time, waiting_time_minutes]) hg2 rfl]
    exact skipLoop_eq_stop _ _ _
      (by norm_num [pyRound, waiting_time, waiting_time_minutes])
  have hsk2 : get_next_row_after_time
      [(⟨0, 1, 1⟩ : BRow), ⟨1000, 1, 1⟩, ⟨5400000, 1, 1⟩, ⟨5401000, 1, 1⟩, ⟨5402000, 1, 1⟩]
      ⟨3, false, ⟨5400000, 1, 1⟩⟩ waiting_time = some ⟨3, true, ⟨5401000, 1, 1⟩⟩ := by
    simp only [get_next_row_after_time]
    exact skipLoop_eq_break _ _ _ ⟨3, true, ⟨5401000, 1, 1⟩⟩
      (by norm_num [pyRound, waiting_time, waiting_time_minutes]) hg3 rfl
  have hscan : backtestScan
      [(⟨0, 1, 1⟩ : BRow), ⟨1000, 1, 1⟩, ⟨5400000, 1, 1⟩, ⟨5401000, 1, 1⟩, ⟨5402000, 1, 1⟩] =
      some ([0, 5400], [1, 1], 2, [0, 5400]) := by
    unfold backtestScan
    rw [hg0]
    show scanLoop _ _ _ _ _ _ = _
    rw [scanLoop_eq_realized _ _ _ _ _ _ ⟨3, false, ⟨5400000, 1, 1⟩⟩ rfl
      (by norm_num [max_trade_volume, minimum_profit]) hsk1]
    rw [scanLoop_eq_realized _ _ _ _ _ _ ⟨3, true, ⟨5401000, 1, 1⟩⟩ rfl
      (by norm_num [max_trade_volume, minimum_profit]) hsk2]
    rw [scanLoop_eq_finished _ _ _ _ _ _ rfl]
    norm_num [pyRound, max_trade_volume]
  exact c5_cooldown_pairwise
    [⟨0, 1, 1⟩, ⟨1000, 1, 1⟩, ⟨5400000, 1, 1⟩, ⟨5401000, 1, 1⟩, ⟨5402000, 1, 1⟩]
    (by norm_num) [0, 5400] [1, 1] 2 [0, 5400] hscan

/-- C10: for every non-empty input frame, `backtest_results` never returns
normally: the scanning loop completes and the subsequent call to the
undefined name `convert_seconds_to_minutes` (line 96; the helper that exists
is `convert_time_to_minutes`) raises `NameError` before any result is
produced. -/
theorem c10_missing_helper_name_error (df : List BRow) (h : df ≠ []) :
    backtest_results df = .error .nameError := by
  have hlen : 0 < df.length := List.length_pos.mpr h
  obtain ⟨s, hs⟩ := get_next_row_isSome df { index := 0, finished := false, row := default }
    hlen
  have hgood := get_next_row_good df _ s hs
  obtain ⟨out, hout⟩ := scanLoop_total df (selMeasure df s) s le_rfl hgood [] [] 0 []
  have hscan : backtestScan df = some out := by
    unfold backtestScan
    rw [hs]
    exact hout
  unfold backtest_results
  rw [hscan]

/-- Witness for C10: a one-row frame raises `NameError`. -/
theorem c10_missing_helper_name_error_witness :
    backtest_results [(⟨0, 0, 1⟩ : BRow)] = .error .nameError :=
  c10_missing_helper_name_error [⟨0, 0, 1⟩] (by simp)

/-- C4 (code bug): the backtest post-processing never reports an undefined
normalized value.  The source itself always raises `NameError` at line 96
(claim C10); with the evidently intended helper `convert_time_to_minutes`
substituted, a frame whose processed records all carry the same timestamp
has `minutes_elapsed = 0` and `cumulative_profit *= 1440 / minutes_elapsed`
raises `ZeroDivisionError` instead of reporting the normalization as
undefined. -/
theorem c4_zero_elapsed_raises :
    backtest_results_intended [(⟨0, 0, 1⟩ : BRow), ⟨0, 0, 1⟩, ⟨0, 0, 1⟩] =
      .error .zeroDivisionError ∧
    backtest_results [(⟨0, 0, 1⟩ : BRow), ⟨0, 0, 1⟩, ⟨0, 0, 1⟩] = .error .nameError := by
  have hg0 : get_next_row [(⟨0, 0, 1⟩ : BRow), ⟨0, 0, 1⟩, ⟨0, 0, 1⟩]
      { index := 0, finished := false, row := default } = some ⟨1, false, ⟨0, 0, 1⟩⟩ := by
    norm_num [get_next_row]
  have hg1 : get_next_row [(⟨0, 0, 1⟩ : BRow), ⟨0, 0, 1⟩, ⟨0, 0, 1⟩]
      ⟨1, false, ⟨0, 0, 1⟩⟩ = some ⟨1, true, ⟨0, 0, 1⟩⟩ := by
    norm_num [get_next_row]
  have hscan : backtestScan [(⟨0, 0, 1⟩ : BRow), ⟨0, 0, 1⟩, ⟨0, 0, 1⟩] =
      some ([0], [], 0, []) := by
    unfold backtestScan
    rw [hg0]
    show scanLoop _ _ _ _ _ _ = _
    rw [scanLoop_eq_step _ _ _ _ _ _ ⟨1, true, ⟨0, 0, 1⟩⟩ rfl
      (by norm_num [max_trade_volume, minimum_profit]) hg1]
    rw [scanLoop_eq_finished _ _ _ _ _ _ rfl]
    norm_num [pyRound]
  constructor
  · unfold backtest_results_intended
    rw [hscan]
    norm_num [convert_time_to_minutes, pyRoundTo_zero]
  · unfold backtest_results
    rw [hscan]
